import Mathlib

/-!
# Verification of the mongosh asynchronous evaluation engine

This file gives a shallow embedding, in Lean 4, of the core pieces of the
mongosh shell that the specification describes:

* `ShellEvaluator.innerEval` (packages/shell-evaluator/src/shell-evaluator.ts):
  direct shell-command dispatch, async-rewriter invocation and the one-time
  runtime-support injection guarded by `hasAppliedAsyncWriterRuntimeSupport`.
* the interruptible evaluation loop (the async REPL `start` wrapper): prompt
  suppression and restoration, SIGINT racing via `onAsyncSigint`, deferral of
  premature `exit` events, and the recoverable/non-recoverable failure split.
* the cursor/session lifecycle state machine (change-stream cursor and
  session wrappers).  Their implementation files are not part of the provided
  sources (only their test files are), so these are modelled from the
  specification text, as marked in the individual doc comments.

JavaScript strings are modelled as Lean `String`s; the handful of string
operations the code uses (`trim`, `replace(/;$/, '')`, `split(/\s+/g)`,
`startsWith('(')`) are implemented explicitly on the character lists so that
all definitions evaluate inside the kernel.
-/

namespace Mongosh

/-! ## JavaScript string helpers -/

/-- `dropWhile isWhitespace` on both ends: the model of JavaScript
`String.prototype.trim` used by `innerEval`. -/
def jsTrimChars (l : List Char) : List Char :=
  ((l.dropWhile Char.isWhitespace).reverse.dropWhile Char.isWhitespace).reverse

/-- Model of `replace(/;$/, '')`: remove one trailing semicolon, if any. -/
def stripTrailingSemicolonChars (l : List Char) : List Char :=
  if l.getLast? = some ';' then l.dropLast else l

/-- Worker for `split(/\s+/g)`.  `acc` holds the current token (reversed);
`skipping` is true while we are inside a run of whitespace that has already
produced a split point. -/
def jsSplitWsAux : List Char → List Char → Bool → List String
  | [], acc, _ => [String.mk acc.reverse]
  | c :: cs, acc, skipping =>
    if c.isWhitespace then
      if skipping then jsSplitWsAux cs acc true
      else String.mk acc.reverse :: jsSplitWsAux cs [] true
    else jsSplitWsAux cs (c :: acc) false

/-- Model of JavaScript `split(/\s+/g)`: split at maximal whitespace runs;
the empty string yields `[""]`, and leading/trailing runs produce empty
boundary tokens, exactly as in JavaScript. -/
def jsSplitWs (l : List Char) : List String :=
  jsSplitWsAux l [] false

/-- The token list `input.trim().replace(/;$/, '').split(/\s+/g)` computed by
`innerEval`. -/
def shellTokens (input : String) : List String :=
  jsSplitWs (stripTrailingSemicolonChars (jsTrimChars input.data))

/-- `argv.shift()`: the first token is the command word. -/
def shellCmd (input : String) : String :=
  (shellTokens input).headD ""

/-- The remaining tokens after `argv.shift()`. -/
def shellArgv (input : String) : List String :=
  (shellTokens input).tail

/-- Model of `argv[0] ?? ''`. -/
def firstArgToken (input : String) : String :=
  (shellArgv input).headD ""

/-- Model of `(argv[0] ?? '').startsWith('(')`. -/
def startsWithParen (s : String) : Bool :=
  match s.data with
  | [] => false
  | c :: _ => c == '('

/-- Whether `pat` occurs at the start of `l`. -/
def leadsChars : List Char → List Char → Bool
  | [], _ => true
  | _ :: _, [] => false
  | a :: as, b :: bs => a == b && leadsChars as bs

/-- Whether `pat` occurs somewhere inside `l`. -/
def occursInChars (pat : List Char) : List Char → Bool
  | [] => leadsChars pat []
  | b :: bs => leadsChars pat (b :: bs) || occursInChars pat bs

/-- Model of `'pat' occurs as a substring of s`, used to state the
"message indicating ..." parts of the spec. -/
def strContains (s pat : String) : Bool :=
  occursInChars pat.data s.data

instance {ε α : Type} [DecidableEq ε] [DecidableEq α] : DecidableEq (Except ε α) := fun x y =>
  match x, y with
  | Except.ok a, Except.ok b => decidable_of_iff (a = b) (by simp)
  | Except.ok _, Except.error _ => isFalse (fun h => Except.noConfusion h)
  | Except.error _, Except.ok _ => isFalse (fun h => Except.noConfusion h)
  | Except.error a, Except.error b => decidable_of_iff (a = b) (by simp)

/-! ## ShellEvaluator (packages/shell-evaluator/src/shell-evaluator.ts) -/

/-- One member of `instanceState.shellApi`: whether it is a direct shell
command, and the function invoked when it is dispatched directly
(`shellApi[cmd](...argv)`), which receives the remaining tokens as string
arguments. -/
structure ShellApiEntry where
  isDirectShellCommand : Bool
  run : List String → String

/-- The collaborators of a `ShellEvaluator` instance: the shell API lookup,
the async rewriter (`process` and `runtimeSupportCode`), the underlying
JavaScript evaluator, the error transformer, and the `HIDDEN_COMMANDS`
classification used before emitting `mongosh:evaluate-input`. -/
structure EvaluatorConfig where
  shellApi : String → Option ShellApiEntry
  process : String → String
  runtimeSupportCode : String
  originalEval : String → Except String String
  transformError : String → String
  isHidden : String → Bool

/-- The mutable per-session state of a `ShellEvaluator`. -/
structure EvaluatorState where
  hasAppliedAsyncWriterRuntimeSupport : Bool
deriving DecidableEq

/-- The constructor sets `hasAppliedAsyncWriterRuntimeSupport = false`. -/
def initialEvaluatorState : EvaluatorState :=
  { hasAppliedAsyncWriterRuntimeSupport := false }

/-- Observable actions of one `innerEval` call: the direct shell command
dispatched (if any), whether `asyncWriter.process` was invoked, whether
`mongosh:evaluate-input` was emitted, the support sources evaluated via
`eval(supportCode)` in the evaluator's own realm, and the string finally
passed to `originalEval` (if any). -/
structure InnerEvalTrace where
  directShellCommand : Option (String × List String)
  processCalled : Bool
  emittedEvaluateInput : Bool
  ownRealmEvaluated : List String
  evaluatedInput : Option String
deriving DecidableEq

/-- The outcome of one `innerEval` call: its result, the state before and
after, and the trace of observable actions. -/
structure InnerEvalResult where
  result : Except String String
  stateBefore : EvaluatorState
  state : EvaluatorState
  trace : InnerEvalTrace
deriving DecidableEq

/-- `try { return await originalEval(...) } catch (err) { throw
this.instanceState.transformError(err); }`. -/
def runOriginalEval (cfg : EvaluatorConfig) (s : String) : Except String String :=
  match cfg.originalEval s with
  | Except.ok v => Except.ok v
  | Except.error e => Except.error (cfg.transformError e)

/-- The direct-dispatch branch of `innerEval`:
`return shellApi[cmd](...argv)`.  No rewriting, no injection, no
`mongosh:evaluate-input` emission. -/
def directEvalResult (st : EvaluatorState) (cmd : String) (entry : ShellApiEntry)
    (argv : List String) : InnerEvalResult :=
  { result := Except.ok (entry.run argv)
    stateBefore := st
    state := st
    trace := { directShellCommand := some (cmd, argv)
               processCalled := false
               emittedEvaluateInput := false
               ownRealmEvaluated := []
               evaluatedInput := none } }

/-- The rewrite branch of `innerEval`: run the input through
`asyncWriter.process`, emit `mongosh:evaluate-input` unless hidden, and on
the first call (flag still false) flip the flag, evaluate
`runtimeSupportCode` in the evaluator's own realm and prepend the same text
to the rewritten input before handing it to `originalEval`. -/
def rewriteEvalResult (cfg : EvaluatorConfig) (st : EvaluatorState)
    (input : String) : InnerEvalResult :=
  let rewritten := cfg.process input
  let emitted := !cfg.isHidden input && !cfg.isHidden rewritten
  if st.hasAppliedAsyncWriterRuntimeSupport then
    { result := runOriginalEval cfg rewritten
      stateBefore := st
      state := st
      trace := { directShellCommand := none
                 processCalled := true
                 emittedEvaluateInput := emitted
                 ownRealmEvaluated := []
                 evaluatedInput := some rewritten } }
  else
    { result := runOriginalEval cfg (cfg.runtimeSupportCode ++ ";\n" ++ rewritten)
      stateBefore := st
      state := { hasAppliedAsyncWriterRuntimeSupport := true }
      trace := { directShellCommand := none
                 processCalled := true
                 emittedEvaluateInput := emitted
                 ownRealmEvaluated := [cfg.runtimeSupportCode]
                 evaluatedInput := some (cfg.runtimeSupportCode ++ ";\n" ++ rewritten) } }

/-- `ShellEvaluator.innerEval`: tokenize the input; if the first token names
a shell API member with `isDirectShellCommand` and the second token does not
start with `'('`, dispatch directly; otherwise take the rewrite path. -/
def innerEval (cfg : EvaluatorConfig) (st : EvaluatorState) (input : String) :
    InnerEvalResult :=
  match cfg.shellApi (shellCmd input) with
  | some entry =>
    if entry.isDirectShellCommand && !startsWithParen (firstArgToken input) then
      directEvalResult st (shellCmd input) entry (shellArgv input)
    else
      rewriteEvalResult cfg st input
  | none => rewriteEvalResult cfg st input

/-- `ShellEvaluator.customEval`: `innerEval` followed by the result handler. -/
def customEval (cfg : EvaluatorConfig) (resultHandler : String → String)
    (st : EvaluatorState) (input : String) : InnerEvalResult :=
  let r := innerEval cfg st input
  { r with result := r.result.map resultHandler }

/-- A whole session: the `innerEval` calls performed in order, threading the
evaluator state from one call to the next. -/
def runSession (cfg : EvaluatorConfig) : EvaluatorState → List String → List InnerEvalResult
  | _, [] => []
  | st, input :: rest =>
    let r := innerEval cfg st input
    r :: runSession cfg r.state rest

/-- The evaluations of a session started from a freshly constructed
`ShellEvaluator`. -/
def sessionTraces (cfg : EvaluatorConfig) (inputs : List String) : List InnerEvalResult :=
  runSession cfg initialEvaluatorState inputs

/-- Placeholder element for out-of-range `List.getD` access. -/
def defaultInnerEvalResult : InnerEvalResult :=
  { result := Except.ok ""
    stateBefore := initialEvaluatorState
    state := initialEvaluatorState
    trace := { directShellCommand := none
               processCalled := false
               emittedEvaluateInput := false
               ownRealmEvaluated := []
               evaluatedInput := none } }

/-! ## Change-stream cursor (modelled from the spec) -/

/-- Documents are opaque; their contents never matter to the claims. -/
abbrev Document := Nat

/-- The error taxonomy of §7 of the spec: `Unimplemented`
(MongoshUnimplementedError), `InvalidState` (closed cursor / ended session /
transaction misuse), `Interrupted`, and opaque `TransportFailure`s.  Distinct
constructors make the kinds discriminable without string parsing. -/
inductive MongoshError where
  | unimplemented (message : String)
  | invalidState (message : String)
  | interruptedErr (message : String)
  | transport (message : String)
deriving DecidableEq

/-- Interactions with the underlying change stream, recorded so that
"fails before any interaction with the underlying stream" is expressible. -/
inductive StreamInteraction where
  | tryNextOp
  | nextOp
  | hasNextOp
  | closeOp
deriving DecidableEq

/-- Modelled from the spec: `change-stream-cursor.ts` is not among the
provided sources (only its test file is).  A change-stream cursor tracks
whether it is closed and which documents the underlying stream currently has
available without suspending. -/
structure ChangeStreamCursor where
  closed : Bool
  available : List Document
deriving DecidableEq

/-- Modelled from the spec: legacy bulk materialization (`toArray`) is
explicitly unsupported on change-stream cursors and fails immediately with a
"not implemented for this cursor kind" failure, touching the stream in no
way. -/
def ChangeStreamCursor.toArray (_c : ChangeStreamCursor) :
    Except MongoshError Unit × List StreamInteraction :=
  (Except.error (MongoshError.unimplemented
    "toArray is not implemented for this cursor kind"), [])

/-- Modelled from the spec: `map` is unsupported on change-stream cursors. -/
def ChangeStreamCursor.map (_c : ChangeStreamCursor) :
    Except MongoshError Unit × List StreamInteraction :=
  (Except.error (MongoshError.unimplemented
    "map is not implemented for this cursor kind"), [])

/-- Modelled from the spec: `forEach` (per-element side-effecting iteration)
is unsupported on change-stream cursors. -/
def ChangeStreamCursor.forEach (_c : ChangeStreamCursor) :
    Except MongoshError Unit × List StreamInteraction :=
  (Except.error (MongoshError.unimplemented
    "forEach is not implemented for this cursor kind"), [])

/-- Modelled from the spec: `objsLeftInBatch` is unsupported on
change-stream cursors. -/
def ChangeStreamCursor.objsLeftInBatch (_c : ChangeStreamCursor) :
    Except MongoshError Unit × List StreamInteraction :=
  (Except.error (MongoshError.unimplemented
    "objsLeftInBatch is not implemented for this cursor kind"), [])

/-- Modelled from the spec: `tryNext` is the non-blocking read.  On an open
cursor it resolves with the next available document, or with the absence
sentinel (`none`, JavaScript `null`) when nothing is currently available; it
never fails on an open cursor.  Read operations on a closed cursor fail with
an invalid-state failure. -/
def ChangeStreamCursor.tryNext (c : ChangeStreamCursor) :
    Except MongoshError (Option Document × ChangeStreamCursor) :=
  if c.closed then
    Except.error (MongoshError.invalidState "cannot read from a closed cursor")
  else
    match c.available with
    | [] => Except.ok (none, c)
    | d :: rest => Except.ok (some d, { c with available := rest })

/-! ## Session wrapper (modelled from the spec) -/

/-- Modelled from the spec: `session.ts` is not among the provided sources
(only its test file is).  A session tracks whether it has ended and whether
a transaction is currently active. -/
structure Session where
  ended : Bool
  inTransaction : Bool
deriving DecidableEq

/-- The message with which operations through an ended session fail. -/
def expiredSessionMessage : String :=
  "cannot perform operations using expired sessions"

/-- The message with which a second `startTransaction` fails. -/
def transactionInProgressMessage : String :=
  "there is a transaction already in progress"

/-- The message with which `commitTransaction`/`abortTransaction` fail when
no transaction is active. -/
def noTransactionStartedMessage : String :=
  "there was no transaction started"

/-- Modelled from the spec: `startTransaction()` fails if a transaction is
already active, leaving the session unchanged; otherwise it activates one. -/
def Session.startTransaction (s : Session) : Session × Option MongoshError :=
  if s.inTransaction then
    (s, some (MongoshError.invalidState transactionInProgressMessage))
  else
    ({ s with inTransaction := true }, none)

/-- Modelled from the spec: `commitTransaction()` fails if no transaction is
active, leaving the session unchanged; otherwise it ends the transaction. -/
def Session.commitTransaction (s : Session) : Session × Option MongoshError :=
  if s.inTransaction then
    ({ s with inTransaction := false }, none)
  else
    (s, some (MongoshError.invalidState noTransactionStartedMessage))

/-- Modelled from the spec: `abortTransaction()` fails if no transaction is
active, leaving the session unchanged; otherwise it ends the transaction. -/
def Session.abortTransaction (s : Session) : Session × Option MongoshError :=
  if s.inTransaction then
    ({ s with inTransaction := false }, none)
  else
    (s, some (MongoshError.invalidState noTransactionStartedMessage))

/-- Modelled from the spec: `endSession()` marks the session as ended. -/
def Session.endSession (s : Session) : Session × Option MongoshError :=
  ({ s with ended := true }, none)

/-- Modelled from the spec: `hasEnded()` reports the end-of-life flag. -/
def Session.hasEnded (s : Session) : Bool :=
  s.ended

/-- Modelled from the spec: a database operation routed through a session
fails with a session-expiry message once the session has ended; otherwise it
proceeds. -/
def Session.runDatabaseOperation (s : Session) : Session × Option MongoshError :=
  if s.ended then
    (s, some (MongoshError.invalidState expiredSessionMessage))
  else
    (s, none)

/-- The operations a session wrapper exposes, for stating invariants over
every possible next step. -/
inductive SessionOp where
  | startTx
  | commitTx
  | abortTx
  | endSess
  | dbOp
deriving DecidableEq

/-- Dispatch one session operation. -/
def Session.applyOp (s : Session) : SessionOp → Session × Option MongoshError
  | SessionOp.startTx => s.startTransaction
  | SessionOp.commitTx => s.commitTransaction
  | SessionOp.abortTx => s.abortTransaction
  | SessionOp.endSess => s.endSession
  | SessionOp.dbOp => s.runDatabaseOperation

/-! ## Interruptible evaluation loop (the async REPL `start` wrapper)

One call of the wrapped `repl.eval` is modelled as a function of the console
state and a scenario describing how the environment behaves while the
evaluation promise is outstanding: how `asyncEval`'s promise settles, whether
a SIGINT is delivered (and how `onAsyncSigint` resolves, and whether its
`finally`-block rejection reaches the promise before the evaluation
settles), and how many times the console emits `exit` during the
evaluation. -/

/-- JavaScript values as far as the loop observes them: `undefined`,
ordinary result values and `Error` objects with a message. -/
inductive JsVal where
  | undef
  | str (s : String)
  | errObj (message : String)
deriving DecidableEq

/-- Listeners on the console/process emitters: the pre-existing ones
(opaque), plus the two listeners the loop itself installs. -/
inductive Listener where
  | prior (n : Nat)
  | sigintCapture
  | exitCapture
deriving DecidableEq

/-- The console state the loop manipulates: the prompt string and the
listener lists for `repl`'s `'SIGINT'`, `process`'s `'SIGINT'` and `repl`'s
`'exit'` events. -/
structure ReplState where
  prompt : String
  replSigintListeners : List Listener
  processSigintListeners : List Listener
  exitListeners : List Listener
deriving DecidableEq

/-- How `onAsyncSigint()` settles: resolving `true` (interrupt handled),
resolving `false`, or throwing (caught and ignored, so `interruptHandled`
stays `false`). -/
inductive SigintHandlerOutcome where
  | handled
  | notHandled
  | threw
deriving DecidableEq

/-- A SIGINT delivered while the evaluation promise is outstanding:
how the handler settles, and whether the `finally`-block `reject(...)`
settles the evaluation promise before `asyncEval`'s own promise does. -/
structure SigintScenario where
  handler : SigintHandlerOutcome
  handlerSettlesFirst : Bool
deriving DecidableEq

/-- The environment behaviour during one evaluation. -/
structure EvalScenario where
  evalOutcome : Except JsVal JsVal
  sigint : Option SigintScenario
  exitEmitsDuringEval : Nat
deriving DecidableEq

/-- The per-loop configuration: whether `onAsyncSigint` was supplied, and
the `is-recoverable-error` classification of input texts. -/
structure LoopConfig where
  hasOnAsyncSigint : Bool
  isRecoverableError : String → Bool

/-- How the loop invokes the REPL callback: `callback(new Recoverable(err))`,
`callback(err)`, or `callback(null, result)`. -/
inductive CallbackCall where
  | recoverable (err : JsVal)
  | failure (err : JsVal)
  | success (value : JsVal)
deriving DecidableEq

/-- Observable events of one wrapped evaluation, in order. -/
inductive LoopEvent where
  | evalStart (input : String)
  | asyncEvalInvoked (promptAtCall : String) (exitListenersAtCall : List Listener)
      (replSigintAtCall : List Listener)
  | exitSignal (invoked : List Listener)
  | cleanupDone (prompt : String) (exitListeners : List Listener)
      (replSigint : List Listener) (procSigint : List Listener)
  | evalFinish (success : Bool) (recoverable : Bool)
  | callbackInvoked (c : CallbackCall)
  | deferredExit (invoked : List Listener)
deriving DecidableEq

/-- The message of the synthesized interruption error. -/
def interruptedMessage : String :=
  "Asynchronous execution was interrupted by `SIGINT`"

/-- The value passed to `reject(...)` in the `finally` block of
`sigintListener`: `undefined` when `onAsyncSigint` resolved `true`, and the
interruption `Error` when it resolved `false` or threw. -/
def sigintRejectValue : SigintHandlerOutcome → JsVal
  | SigintHandlerOutcome.handled => JsVal.undef
  | SigintHandlerOutcome.notHandled => JsVal.errObj interruptedMessage
  | SigintHandlerOutcome.threw => JsVal.errObj interruptedMessage

/-- How the `await new Promise(...)` settles: the first settlement wins.
When `onAsyncSigint` is installed and a SIGINT arrives whose handler
completes before `asyncEval`'s promise settles, the `finally`-block
rejection wins; otherwise the evaluation's own settlement does. -/
def raceOutcome (cfg : LoopConfig) (sc : EvalScenario) : Except JsVal JsVal :=
  match sc.sigint with
  | some s =>
    if cfg.hasOnAsyncSigint && s.handlerSettlesFirst then
      Except.error (sigintRejectValue s.handler)
    else
      sc.evalOutcome
  | none => sc.evalOutcome

/-- The `exit` emissions observed during the evaluation: the loop's
`once`-registered capture listener receives the first one (recording
`exitEventPending = true`) and is then removed, so later emissions reach no
listener at all; the console's prior listeners were removed up front. -/
def exitSignalEvents : Nat → List LoopEvent
  | 0 => []
  | Nat.succ n =>
    LoopEvent.exitSignal [Listener.exitCapture] :: List.replicate n (LoopEvent.exitSignal [])

/-- The `process.nextTick(() => repl.emit('exit'))` re-emission: performed
exactly once, after the cleanup and the callback, iff an `exit` was captured
during the evaluation; by then the prior listeners are reinstalled and
receive it. -/
def deferredExitEvents (exitEmits : Nat) (priors : List Listener) : List LoopEvent :=
  if 0 < exitEmits then [LoopEvent.deferredExit priors] else []

/-- The `repl`'s SIGINT listener list while the evaluation is outstanding:
with `onAsyncSigint` the loop removes all listeners and installs its own
capture listener; without it the listeners are untouched. -/
def replSigintDuringEval (cfg : LoopConfig) (st : ReplState) : List Listener :=
  if cfg.hasOnAsyncSigint then [Listener.sigintCapture] else st.replSigintListeners

/-- The `process`'s SIGINT listener list while the evaluation is awaited
(the capture listener is added right after `asyncEval` is invoked). -/
def processSigintDuringEval (cfg : LoopConfig) (st : ReplState) : List Listener :=
  if cfg.hasOnAsyncSigint then [Listener.sigintCapture] else st.processSigintListeners

/-- The complete observable outcome of one wrapped evaluation.  The event
segments are kept separate so that their relative order is part of the
model: `startEvents` precede the evaluation, `evalEvents` happen while the
evaluation promise is outstanding, `cleanupEvents` record the `finally`
block, `reportEvents` the `catch`/success continuation, and
`nextTickEvents` the deferred `exit` re-emission scheduled with
`process.nextTick`. -/
structure LoopRun where
  startEvents : List LoopEvent
  evalEvents : List LoopEvent
  cleanupEvents : List LoopEvent
  reportEvents : List LoopEvent
  nextTickEvents : List LoopEvent
  promptDuringEval : String
  finishSuccess : Bool
  finishRecoverable : Bool
  callbackCall : CallbackCall
  finalState : ReplState
deriving DecidableEq

/-- All events of one wrapped evaluation, in order. -/
def LoopRun.events (r : LoopRun) : List LoopEvent :=
  r.startEvents ++ r.evalEvents ++ r.cleanupEvents ++ r.reportEvents ++ r.nextTickEvents

/-- Recognizer for the deferred `exit` re-emission event. -/
def LoopEvent.isDeferredExit : LoopEvent → Bool
  | LoopEvent.deferredExit _ => true
  | _ => false

/-- The failure-reporting split of the `catch` block: a recoverable input
classification leads to `callback(new Recoverable(err))`, anything else to
`callback(err)` with the error identity preserved; success leads to
`callback(null, result)`. -/
def reportOutcome (cfg : LoopConfig) (input : String) (outcome : Except JsVal JsVal) :
    Bool × Bool × CallbackCall :=
  match outcome with
  | Except.error e =>
    if cfg.isRecoverableError input then
      (false, true, CallbackCall.recoverable e)
    else
      (false, false, CallbackCall.failure e)
  | Except.ok v => (true, false, CallbackCall.success v)

/-- One call of the wrapped `repl.eval`, following the source line by line:
emit `evalStart`; save the prompt and blank it; disable the SIGINT and
`exit` listeners and install the capture listeners; invoke `asyncEval` and
race it against the SIGINT handler; in the `finally` block remove the
capture listeners, reinstall the saved ones, restore the saved prompt (the
prompt is still blank at that point) and schedule the deferred `exit`
re-emission if one was captured; then report the outcome through
`evalFinish` and the callback. -/
def runLoopEval (cfg : LoopConfig) (st : ReplState) (sc : EvalScenario)
    (input : String) : LoopRun :=
  let origPrompt := st.prompt
  let outcome := raceOutcome cfg sc
  let report := reportOutcome cfg input outcome
  { startEvents := [LoopEvent.evalStart input,
      LoopEvent.asyncEvalInvoked "" [Listener.exitCapture] (replSigintDuringEval cfg st)]
    evalEvents := exitSignalEvents sc.exitEmitsDuringEval
    cleanupEvents := [LoopEvent.cleanupDone origPrompt st.exitListeners
      st.replSigintListeners st.processSigintListeners]
    reportEvents := [LoopEvent.evalFinish report.1 report.2.1,
      LoopEvent.callbackInvoked report.2.2]
    nextTickEvents := deferredExitEvents sc.exitEmitsDuringEval st.exitListeners
    promptDuringEval := ""
    finishSuccess := report.1
    finishRecoverable := report.2.1
    callbackCall := report.2.2
    finalState := { prompt := origPrompt
                    replSigintListeners := st.replSigintListeners
                    processSigintListeners := st.processSigintListeners
                    exitListeners := st.exitListeners } }

/-! ## Theorems -/

/-- C4: on every change-stream cursor, regardless of its open/closed state
and of the available data, the legacy read-style operations `map`,
`forEach`, `toArray` and `objsLeftInBatch` fail immediately with a
MongoshUnimplementedError ("not implemented for this cursor kind") and
perform no interaction with the underlying stream. -/
theorem changeStreamCursor_legacy_ops_unimplemented (c : ChangeStreamCursor) :
    c.map = (Except.error (MongoshError.unimplemented
      "map is not implemented for this cursor kind"), []) ∧
    c.forEach = (Except.error (MongoshError.unimplemented
      "forEach is not implemented for this cursor kind"), []) ∧
    c.toArray = (Except.error (MongoshError.unimplemented
      "toArray is not implemented for this cursor kind"), []) ∧
    c.objsLeftInBatch = (Except.error (MongoshError.unimplemented
      "objsLeftInBatch is not implemented for this cursor kind"), []) :=
  ⟨rfl, rfl, rfl, rfl⟩

/-- C7: on every open cursor, `tryNext` resolves with the absence sentinel
(`none`) when no data is currently available, resolves with the first
available document when there is one, and never fails. -/
theorem changeStreamCursor_tryNext_nonblocking (c : ChangeStreamCursor)
    (h : c.closed = false) :
    (c.available = [] → c.tryNext = Except.ok (none, c)) ∧
    (∀ d rest, c.available = d :: rest →
      c.tryNext = Except.ok (some d, { c with available := rest })) ∧
    (∀ e, c.tryNext ≠ Except.error e) := by
  refine ⟨?_, ?_, ?_⟩
  · intro ha
    simp [ChangeStreamCursor.tryNext, h, ha]
  · intro d rest ha
    simp [ChangeStreamCursor.tryNext, h, ha]
  · intro e hcon
    rcases hav : c.available with _ | ⟨d, rest⟩ <;>
      simp [ChangeStreamCursor.tryNext, h, hav] at hcon

/-- C7 witness: a concrete open cursor with no available data, on which
`tryNext` returns the absence sentinel. -/
theorem changeStreamCursor_tryNext_nonblocking_witness :
    ({ closed := false, available := [] } : ChangeStreamCursor).closed = false ∧
    ({ closed := false, available := [] } : ChangeStreamCursor).tryNext =
      Except.ok (none, { closed := false, available := [] }) :=
  ⟨rfl, (changeStreamCursor_tryNext_nonblocking { closed := false, available := [] } rfl).1 rfl⟩

/-- C5: `commitTransaction`/`abortTransaction` on a session with no active
transaction fail with a message indicating no transaction was started, and
`startTransaction` on a session with an active transaction fails with a
message indicating a transaction is already in progress; in each failing
case the session state is unchanged. -/
theorem session_transaction_state_guards (s t : Session)
    (hs : s.inTransaction = false) (ht : t.inTransaction = true) :
    (s.commitTransaction = (s, some (MongoshError.invalidState noTransactionStartedMessage)) ∧
     s.abortTransaction = (s, some (MongoshError.invalidState noTransactionStartedMessage)) ∧
     strContains noTransactionStartedMessage "transaction started" = true) ∧
    (t.startTransaction = (t, some (MongoshError.invalidState transactionInProgressMessage)) ∧
     strContains transactionInProgressMessage "in progress" = true) := by
  refine ⟨⟨?_, ?_, by decide⟩, ?_, by decide⟩
  · simp [Session.commitTransaction, hs]
  · simp [Session.abortTransaction, hs]
  · simp [Session.startTransaction, ht]

/-- C5 witness: concrete sessions exercising both failing cases. -/
theorem session_transaction_state_guards_witness :
    ({ ended := false, inTransaction := false } : Session).inTransaction = false ∧
    ({ ended := false, inTransaction := true } : Session).inTransaction = true ∧
    ({ ended := false, inTransaction := false } : Session).commitTransaction =
      ({ ended := false, inTransaction := false },
        some (MongoshError.invalidState noTransactionStartedMessage)) ∧
    ({ ended := false, inTransaction := true } : Session).startTransaction =
      ({ ended := false, inTransaction := true },
        some (MongoshError.invalidState transactionInProgressMessage)) := by
  have h := session_transaction_state_guards
    { ended := false, inTransaction := false }
    { ended := false, inTransaction := true } rfl rfl
  exact ⟨rfl, rfl, h.1.1, h.2.1⟩

/-- C6: `endSession` is terminal: afterwards `hasEnded` reports `true`;
every database operation routed through an ended session fails with a
message identifiably about session expiry (containing "expired"),
carried by an invalid-state error distinct from any transport failure; and
no session operation ever reverts the ended flag. -/
theorem session_endSession_terminal (s e : Session) (he : e.ended = true) :
    s.endSession.1.hasEnded = true ∧
    (e.runDatabaseOperation = (e, some (MongoshError.invalidState expiredSessionMessage)) ∧
     strContains expiredSessionMessage "expired" = true ∧
     (∀ m, e.runDatabaseOperation.2 ≠ some (MongoshError.transport m))) ∧
    (∀ op : SessionOp, (e.applyOp op).1.ended = true) := by
  refine ⟨rfl, ⟨?_, by decide, ?_⟩, ?_⟩
  · simp [Session.runDatabaseOperation, he]
  · intro m
    simp [Session.runDatabaseOperation, he]
  · intro op
    cases op <;> cases hit : e.inTransaction <;>
      simp [Session.applyOp, Session.startTransaction, Session.commitTransaction,
        Session.abortTransaction, Session.endSession, Session.runDatabaseOperation,
        he, hit]

/-- C6 witness: a concrete ended session. -/
theorem session_endSession_terminal_witness :
    ({ ended := true, inTransaction := false } : Session).ended = true ∧
    ({ ended := true, inTransaction := false } : Session).runDatabaseOperation =
      ({ ended := true, inTransaction := false },
        some (MongoshError.invalidState expiredSessionMessage)) := by
  have h := session_endSession_terminal
    { ended := false, inTransaction := false }
    { ended := true, inTransaction := false } rfl
  exact ⟨rfl, h.2.1.1⟩

/-- C8: the loop blanks the console prompt for the duration of the
evaluation (the prompt is the empty string when `asyncEval` is invoked) and
after the evaluation concludes the prompt again equals the exact string it
held before the evaluation began. -/
theorem asyncRepl_prompt_suppressed_and_restored (cfg : LoopConfig) (st : ReplState)
    (sc : EvalScenario) (input : String) :
    (runLoopEval cfg st sc input).promptDuringEval = "" ∧
    LoopEvent.asyncEvalInvoked "" [Listener.exitCapture] (replSigintDuringEval cfg st)
      ∈ (runLoopEval cfg st sc input).startEvents ∧
    (runLoopEval cfg st sc input).finalState.prompt = st.prompt := by
  refine ⟨rfl, ?_, rfl⟩
  simp [runLoopEval]

/-- C3: when the raced evaluation fails and the input is classified
recoverable, the loop emits a recoverable-flagged finish event and hands the
console a `Recoverable`-wrapped error (never a plain error); when the input
is not classified recoverable, the failure is passed to the callback
unmodified in identity. -/
theorem asyncRepl_recoverable_failure_split (cfg : LoopConfig) (st : ReplState)
    (sc : EvalScenario) (input : String) (e : JsVal)
    (he : raceOutcome cfg sc = Except.error e) :
    (cfg.isRecoverableError input = true →
      (runLoopEval cfg st sc input).callbackCall = CallbackCall.recoverable e ∧
      (runLoopEval cfg st sc input).finishSuccess = false ∧
      (runLoopEval cfg st sc input).finishRecoverable = true ∧
      LoopEvent.evalFinish false true ∈ (runLoopEval cfg st sc input).events ∧
      (∀ e2, (runLoopEval cfg st sc input).callbackCall ≠ CallbackCall.failure e2)) ∧
    (cfg.isRecoverableError input = false →
      (runLoopEval cfg st sc input).callbackCall = CallbackCall.failure e ∧
      (runLoopEval cfg st sc input).finishSuccess = false ∧
      (runLoopEval cfg st sc input).finishRecoverable = false) := by
  constructor <;> intro hrec <;>
    simp [runLoopEval, reportOutcome, he, hrec, LoopRun.events]

/-- C3 witness: a concrete failing evaluation of an incomplete input that is
classified recoverable. -/
theorem asyncRepl_recoverable_failure_split_witness :
    raceOutcome { hasOnAsyncSigint := false, isRecoverableError := fun s => s == "if (" }
      { evalOutcome := Except.error (JsVal.errObj "Unexpected end of input"),
        sigint := none, exitEmitsDuringEval := 0 } =
      Except.error (JsVal.errObj "Unexpected end of input") ∧
    (runLoopEval { hasOnAsyncSigint := false, isRecoverableError := fun s => s == "if (" }
      { prompt := "> ", replSigintListeners := [], processSigintListeners := [],
        exitListeners := [] }
      { evalOutcome := Except.error (JsVal.errObj "Unexpected end of input"),
        sigint := none, exitEmitsDuringEval := 0 } "if (").callbackCall =
      CallbackCall.recoverable (JsVal.errObj "Unexpected end of input") := by
  refine ⟨rfl, ?_⟩
  exact ((asyncRepl_recoverable_failure_split
    { hasOnAsyncSigint := false, isRecoverableError := fun s => s == "if (" }
    { prompt := "> ", replSigintListeners := [], processSigintListeners := [],
      exitListeners := [] }
    { evalOutcome := Except.error (JsVal.errObj "Unexpected end of input"),
      sigint := none, exitEmitsDuringEval := 0 } "if ("
    (JsVal.errObj "Unexpected end of input") rfl).1 rfl).1

/-- A loop configuration with `onAsyncSigint` installed. -/
def sigintCfg : LoopConfig :=
  { hasOnAsyncSigint := true, isRecoverableError := fun _ => false }

/-- A concrete console state. -/
def sigintState : ReplState :=
  { prompt := "> "
    replSigintListeners := [Listener.prior 0]
    processSigintListeners := [Listener.prior 1]
    exitListeners := [Listener.prior 2] }

/-- A scenario in which the evaluation would resolve with the value `"42"`,
a SIGINT is delivered while the promise is outstanding, `onAsyncSigint`
resolves `true` (interruption handled), and the handler's `finally`-block
rejection settles the promise before the evaluation does. -/
def sigintHandledScenario : EvalScenario :=
  { evalOutcome := Except.ok (JsVal.str "42")
    sigint := some { handler := SigintHandlerOutcome.handled, handlerSettlesFirst := true }
    exitEmitsDuringEval := 0 }

/-- C1 counterexample: with `onAsyncSigint` resolving `true` but completing
before the evaluation settles, the evaluation's result (`"42"`) is NOT
returned as if no interrupt had occurred: the loop rejects the evaluation
promise with `undefined` (the value `reject(interruptHandled ? undefined :
...)` passes), so the callback receives `undefined` through the failure
path and the evaluation's own result is discarded. -/
theorem asyncRepl_sigint_handled_counterexample :
    sigintHandledScenario.sigint =
      some { handler := SigintHandlerOutcome.handled, handlerSettlesFirst := true } ∧
    sigintHandledScenario.evalOutcome = Except.ok (JsVal.str "42") ∧
    (runLoopEval sigintCfg sigintState sigintHandledScenario "db.test.find()").callbackCall ≠
      CallbackCall.success (JsVal.str "42") ∧
    (runLoopEval sigintCfg sigintState sigintHandledScenario "db.test.find()").callbackCall =
      CallbackCall.failure JsVal.undef := by
  refine ⟨rfl, rfl, ?_, rfl⟩
  decide

/-- C1 (amended): in the cancellation race, when the SIGINT handler's
`finally`-block rejection settles the promise before the evaluation does,
the loop rejects with `undefined` if the handler resolved `true` (the
callback then receives `undefined`, not the evaluation's result) and with
the synthesized `Error` "Asynchronous execution was interrupted by
`SIGINT`" if the handler resolved `false` or threw; the evaluation's own
result is used, as if no interrupt had occurred, exactly when the
evaluation promise settles first. -/
theorem asyncRepl_sigint_race (cfg : LoopConfig) (st : ReplState) (sc : EvalScenario)
    (s : SigintScenario) (input : String)
    (hcfg : cfg.hasOnAsyncSigint = true) (hs : sc.sigint = some s) :
    (s.handlerSettlesFirst = true →
      raceOutcome cfg sc = Except.error (sigintRejectValue s.handler) ∧
      (s.handler = SigintHandlerOutcome.handled →
        sigintRejectValue s.handler = JsVal.undef ∧
        (cfg.isRecoverableError input = false →
          (runLoopEval cfg st sc input).callbackCall = CallbackCall.failure JsVal.undef)) ∧
      (s.handler ≠ SigintHandlerOutcome.handled →
        sigintRejectValue s.handler = JsVal.errObj interruptedMessage)) ∧
    (s.handlerSettlesFirst = false →
      raceOutcome cfg sc = sc.evalOutcome ∧
      (∀ v, sc.evalOutcome = Except.ok v →
        (runLoopEval cfg st sc input).callbackCall = CallbackCall.success v)) := by
  constructor
  · intro hf
    refine ⟨by simp [raceOutcome, hs, hcfg, hf], ?_, ?_⟩
    · intro hh
      refine ⟨by simp [sigintRejectValue, hh], ?_⟩
      intro hrec
      simp [runLoopEval, reportOutcome, raceOutcome, hs, hcfg, hf, hh,
        sigintRejectValue, hrec]
    · intro hh
      cases hhd : s.handler
      · exact absurd hhd hh
      · simp [sigintRejectValue]
      · simp [sigintRejectValue]
  · intro hf
    refine ⟨by simp [raceOutcome, hs, hcfg, hf], ?_⟩
    intro v hv
    simp [runLoopEval, reportOutcome, raceOutcome, hs, hcfg, hf, hv]

/-- C1 witness: the amended theorem applied to the concrete handled-first
scenario. -/
theorem asyncRepl_sigint_race_witness :
    sigintCfg.hasOnAsyncSigint = true ∧
    sigintHandledScenario.sigint =
      some { handler := SigintHandlerOutcome.handled, handlerSettlesFirst := true } ∧
    raceOutcome sigintCfg sigintHandledScenario = Except.error JsVal.undef := by
  refine ⟨rfl, rfl, ?_⟩
  exact ((asyncRepl_sigint_race sigintCfg sigintState sigintHandledScenario
    { handler := SigintHandlerOutcome.handled, handlerSettlesFirst := true }
    "db.test.find()" rfl rfl).1 rfl).1

/-- Every event of `exitSignalEvents` is an `exit` emission that reached
either just the capture listener or no listener at all. -/
theorem mem_exitSignalEvents {e : LoopEvent} {k : Nat} (h : e ∈ exitSignalEvents k) :
    e = LoopEvent.exitSignal [Listener.exitCapture] ∨ e = LoopEvent.exitSignal [] := by
  cases k with
  | zero => simp [exitSignalEvents] at h
  | succ n =>
    simp only [exitSignalEvents, List.mem_cons, List.mem_replicate] at h
    rcases h with h | h
    · exact Or.inl h
    · exact Or.inr h.2

/-- Reduction of `exitSignalEvents` at zero. -/
theorem exitSignalEvents_zero : exitSignalEvents 0 = [] := rfl

/-- No deferred-exit event occurs among the in-evaluation `exit` signals. -/
theorem deferredExit_not_mem_exitSignalEvents (ls : List Listener) (k : Nat) :
    LoopEvent.deferredExit ls ∉ exitSignalEvents k := by
  intro h
  rcases mem_exitSignalEvents h with h | h <;> simp at h

/-- An `exitSignal` event of a run always comes from the evaluation phase. -/
theorem exitSignal_mem_events {cfg : LoopConfig} {st : ReplState} {sc : EvalScenario}
    {input : String} {ls : List Listener}
    (h : LoopEvent.exitSignal ls ∈ (runLoopEval cfg st sc input).events) :
    LoopEvent.exitSignal ls ∈ exitSignalEvents sc.exitEmitsDuringEval := by
  by_cases hk : 0 < sc.exitEmitsDuringEval <;>
    simpa [LoopRun.events, runLoopEval, deferredExitEvents, hk] using h

/-- A `deferredExit` event of a run always comes from the next-tick phase. -/
theorem deferredExit_mem_events {cfg : LoopConfig} {st : ReplState} {sc : EvalScenario}
    {input : String} {ls : List Listener}
    (h : LoopEvent.deferredExit ls ∈ (runLoopEval cfg st sc input).events) :
    LoopEvent.deferredExit ls ∈ (runLoopEval cfg st sc input).nextTickEvents := by
  by_cases hk : 0 < sc.exitEmitsDuringEval
  · simpa [LoopRun.events, runLoopEval, deferredExitEvents, hk,
      deferredExit_not_mem_exitSignalEvents] using h
  · exfalso
    have hz : sc.exitEmitsDuringEval = 0 := Nat.eq_zero_of_not_pos hk
    simp [LoopRun.events, runLoopEval, deferredExitEvents, hz,
      deferredExit_not_mem_exitSignalEvents, exitSignalEvents_zero] at h

/-- No event outside the next-tick phase is a deferred-exit event. -/
theorem countP_isDeferredExit_exitSignalEvents (k : Nat) :
    (exitSignalEvents k).countP LoopEvent.isDeferredExit = 0 := by
  refine List.countP_eq_zero.mpr ?_
  intro e he
  rcases mem_exitSignalEvents he with h | h <;> simp [h, LoopEvent.isDeferredExit]

/-- C9: an `exit` signal emitted by the console during evaluation never
reaches a pre-existing listener; the prior `exit` listeners are reinstalled
afterwards; the deferred re-emission happens exactly once, in the next-tick
phase (after cleanup and callback), iff an `exit` was captured during the
evaluation, and is delivered to the reinstalled prior listeners; when no
`exit` occurs during evaluation none is synthesized. -/
theorem asyncRepl_exit_deferred (cfg : LoopConfig) (st : ReplState)
    (sc : EvalScenario) (input : String) :
    (∀ ls, LoopEvent.exitSignal ls ∈ (runLoopEval cfg st sc input).events →
      ∀ n, Listener.prior n ∉ ls) ∧
    (runLoopEval cfg st sc input).finalState.exitListeners = st.exitListeners ∧
    (runLoopEval cfg st sc input).events.countP LoopEvent.isDeferredExit =
      (if 0 < sc.exitEmitsDuringEval then 1 else 0) ∧
    (0 < sc.exitEmitsDuringEval →
      (runLoopEval cfg st sc input).nextTickEvents =
        [LoopEvent.deferredExit st.exitListeners]) ∧
    (sc.exitEmitsDuringEval = 0 → (runLoopEval cfg st sc input).nextTickEvents = []) ∧
    (∀ ls, LoopEvent.deferredExit ls ∈ (runLoopEval cfg st sc input).events →
      LoopEvent.deferredExit ls ∈ (runLoopEval cfg st sc input).nextTickEvents ∧
      ls = st.exitListeners) := by
  refine ⟨?_, rfl, ?_, ?_, ?_, ?_⟩
  · intro ls hmem n
    rcases mem_exitSignalEvents (exitSignal_mem_events hmem) with h | h <;>
      simp_all
  · simp only [LoopRun.events, runLoopEval, List.countP_append,
      countP_isDeferredExit_exitSignalEvents, deferredExitEvents]
    by_cases hk : 0 < sc.exitEmitsDuringEval <;>
      simp [hk, LoopEvent.isDeferredExit]
  · intro hk
    simp [runLoopEval, deferredExitEvents, hk]
  · intro hk
    simp [runLoopEval, deferredExitEvents, hk]
  · intro ls hmem
    have h := deferredExit_mem_events hmem
    refine ⟨h, ?_⟩
    simp only [runLoopEval, deferredExitEvents] at h
    split at h
    · simpa using h
    · exact absurd h (by simp)

/-- C9 witness: a concrete run during which the console emits `exit` twice. -/
theorem asyncRepl_exit_deferred_witness :
    (runLoopEval sigintCfg sigintState
      { evalOutcome := Except.ok JsVal.undef, sigint := none, exitEmitsDuringEval := 2 }
      "exit").nextTickEvents = [LoopEvent.deferredExit [Listener.prior 2]] ∧
    (runLoopEval sigintCfg sigintState
      { evalOutcome := Except.ok JsVal.undef, sigint := none, exitEmitsDuringEval := 2 }
      "exit").events.countP LoopEvent.isDeferredExit = 1 := by
  have h := asyncRepl_exit_deferred sigintCfg sigintState
    { evalOutcome := Except.ok JsVal.undef, sigint := none, exitEmitsDuringEval := 2 }
    "exit"
  exact ⟨h.2.2.2.1 (by decide), h.2.2.1⟩

/-- The rewrite path always reports `asyncWriter.process` as invoked. -/
theorem rewriteEvalResult_processCalled (cfg : EvaluatorConfig) (st : EvaluatorState)
    (input : String) : (rewriteEvalResult cfg st input).trace.processCalled = true := by
  unfold rewriteEvalResult
  split <;> rfl

/-- `innerEval` either dispatches a direct shell command or takes the
rewrite path. -/
theorem innerEval_direct_or_rewrite (cfg : EvaluatorConfig) (st : EvaluatorState)
    (input : String) :
    (∃ entry, cfg.shellApi (shellCmd input) = some entry ∧
      innerEval cfg st input =
        directEvalResult st (shellCmd input) entry (shellArgv input)) ∨
    innerEval cfg st input = rewriteEvalResult cfg st input := by
  unfold innerEval
  cases hapi : cfg.shellApi (shellCmd input) with
  | none => exact Or.inr rfl
  | some entry =>
    cases hb : (entry.isDirectShellCommand && !startsWithParen (firstArgToken input)) with
    | false =>
      simp only [hb, if_false]
      exact Or.inr rfl
    | true =>
      simp only [hb, if_true]
      exact Or.inl ⟨entry, rfl, rfl⟩

/-- `innerEval` records the state it started from. -/
theorem innerEval_stateBefore (cfg : EvaluatorConfig) (st : EvaluatorState)
    (input : String) : (innerEval cfg st input).stateBefore = st := by
  rcases innerEval_direct_or_rewrite cfg st input with ⟨entry, -, heq⟩ | heq <;> rw [heq]
  · rfl
  · unfold rewriteEvalResult
    split <;> rfl

/-- Once the support flag is set, `innerEval` neither changes state nor
evaluates anything in its own realm again. -/
theorem innerEval_flag_true (cfg : EvaluatorConfig) (st : EvaluatorState)
    (input : String) (h : st.hasAppliedAsyncWriterRuntimeSupport = true) :
    (innerEval cfg st input).state = st ∧
    (innerEval cfg st input).trace.ownRealmEvaluated = [] := by
  rcases innerEval_direct_or_rewrite cfg st input with ⟨entry, -, heq⟩ | heq <;> rw [heq]
  · exact ⟨rfl, rfl⟩
  · unfold rewriteEvalResult
    simp [h]

/-- A call that does not invoke the rewriter leaves the state unchanged and
evaluates nothing in the evaluator's own realm. -/
theorem innerEval_not_processCalled (cfg : EvaluatorConfig) (st : EvaluatorState)
    (input : String) (h : (innerEval cfg st input).trace.processCalled = false) :
    (innerEval cfg st input).state = st ∧
    (innerEval cfg st input).trace.ownRealmEvaluated = [] := by
  rcases innerEval_direct_or_rewrite cfg st input with ⟨entry, -, heq⟩ | heq
  · rw [heq]
    exact ⟨rfl, rfl⟩
  · rw [heq] at h
    rw [rewriteEvalResult_processCalled] at h
    exact absurd h (by simp)

/-- A rewriting call from the fresh state injects: it evaluates the support
code in the evaluator's own realm, prepends the same text to the rewritten
input, and flips the flag from `false` to `true`. -/
theorem innerEval_inject (cfg : EvaluatorConfig) (st : EvaluatorState) (input : String)
    (hf : st.hasAppliedAsyncWriterRuntimeSupport = false)
    (hp : (innerEval cfg st input).trace.processCalled = true) :
    (innerEval cfg st input).trace.ownRealmEvaluated = [cfg.runtimeSupportCode] ∧
    (innerEval cfg st input).trace.evaluatedInput =
      some (cfg.runtimeSupportCode ++ ";\n" ++ cfg.process input) ∧
    (innerEval cfg st input).state.hasAppliedAsyncWriterRuntimeSupport = true ∧
    (innerEval cfg st input).stateBefore = st := by
  have heq : innerEval cfg st input = rewriteEvalResult cfg st input := by
    rcases innerEval_direct_or_rewrite cfg st input with ⟨entry, -, heq⟩ | heq
    · rw [heq] at hp
      exact absurd hp (by simp [directEvalResult])
    · exact heq
  rw [heq]
  unfold rewriteEvalResult
  simp [hf]

/-- After the flag is set, no later evaluation of the session injects. -/
theorem runSession_flag_true_no_inject (cfg : EvaluatorConfig) (inputs : List String) :
    ∀ (st : EvaluatorState), st.hasAppliedAsyncWriterRuntimeSupport = true → ∀ (j : Nat),
      ((runSession cfg st inputs).getD j defaultInnerEvalResult).trace.ownRealmEvaluated
        = [] := by
  induction inputs with
  | nil =>
    intro st _ j
    show ((([] : List InnerEvalResult)).getD j defaultInnerEvalResult).trace.ownRealmEvaluated = []
    cases j <;> rfl
  | cons a l ih =>
    intro st h j
    have hst := innerEval_flag_true cfg st a h
    have hrs : runSession cfg st (a :: l) =
        innerEval cfg st a :: runSession cfg (innerEval cfg st a).state l := rfl
    rw [hrs]
    cases j with
    | zero => simpa using hst.2
    | succ k =>
      simp only [List.getD_cons_succ]
      exact ih (innerEval cfg st a).state (by rw [hst.1]; exact h) k

/-- In a session started with the flag unset, an evaluation injects the
runtime support exactly when it is the first one that takes the rewrite
path, and then it evaluates the support code in the evaluator's own realm,
prepends the same text to the rewritten input and flips the flag. -/
theorem runSession_first_rewrite_injects (cfg : EvaluatorConfig) (inputs : List String) :
    ∀ (st : EvaluatorState), st.hasAppliedAsyncWriterRuntimeSupport = false →
    ∀ (i : Nat), i < inputs.length →
    (((runSession cfg st inputs).getD i defaultInnerEvalResult).trace.ownRealmEvaluated ≠ [] ↔
      ((runSession cfg st inputs).getD i defaultInnerEvalResult).trace.processCalled = true ∧
      ∀ j, j < i →
        ((runSession cfg st inputs).getD j defaultInnerEvalResult).trace.processCalled
          = false) ∧
    (((runSession cfg st inputs).getD i defaultInnerEvalResult).trace.ownRealmEvaluated ≠ [] →
      ((runSession cfg st inputs).getD i defaultInnerEvalResult).trace.ownRealmEvaluated =
        [cfg.runtimeSupportCode] ∧
      ((runSession cfg st
        inputs).getD i defaultInnerEvalResult).stateBefore.hasAppliedAsyncWriterRuntimeSupport
        = false ∧
      ((runSession cfg st
        inputs).getD i defaultInnerEvalResult).state.hasAppliedAsyncWriterRuntimeSupport
        = true ∧
      ((runSession cfg st inputs).getD i defaultInnerEvalResult).trace.evaluatedInput =
        some (cfg.runtimeSupportCode ++ ";\n" ++ cfg.process (inputs.getD i ""))) := by
  induction inputs with
  | nil =>
    intro st _ i hi
    exact absurd hi (by simp)
  | cons a l ih =>
    intro st hf i hi
    have hrs : runSession cfg st (a :: l) =
        innerEval cfg st a :: runSession cfg (innerEval cfg st a).state l := rfl
    cases hp : (innerEval cfg st a).trace.processCalled with
    | false =>
      have hd := innerEval_not_processCalled cfg st a hp
      cases i with
      | zero =>
        rw [hrs]
        simp only [List.getD_cons_zero]
        refine ⟨⟨?_, ?_⟩, ?_⟩
        · intro hne
          exact absurd hd.2 hne
        · rintro ⟨hpc, -⟩
          rw [hp] at hpc
          exact absurd hpc (by simp)
        · intro hne
          exact absurd hd.2 hne
      | succ k =>
        have hf2 : (innerEval cfg st a).state.hasAppliedAsyncWriterRuntimeSupport = false := by
          rw [hd.1]; exact hf
        have hk : k < l.length := by simpa using hi
        have IH := ih (innerEval cfg st a).state hf2 k hk
        rw [hrs]
        simp only [List.getD_cons_succ]
        refine ⟨⟨?_, ?_⟩, ?_⟩
        · intro hne
          rcases IH.1.mp hne with ⟨hpc, hall⟩
          refine ⟨hpc, ?_⟩
          intro j hj
          cases j with
          | zero => simpa using hp
          | succ m =>
            simp only [List.getD_cons_succ]
            exact hall m (by omega)
        · rintro ⟨hpc, hall⟩
          refine IH.1.mpr ⟨hpc, ?_⟩
          intro m hm
          have hm1 := hall (m + 1) (by omega)
          simpa using hm1
        · intro hne
          have h2 := IH.2 hne
          simpa using h2
    | true =>
      have hinj := innerEval_inject cfg st a hf hp
      cases i with
      | zero =>
        rw [hrs]
        simp only [List.getD_cons_zero]
        refine ⟨⟨?_, ?_⟩, ?_⟩
        · intro _
          exact ⟨hp, fun j hj => absurd hj (Nat.not_lt_zero j)⟩
        · intro _
          rw [hinj.1]
          simp
        · intro _
          refine ⟨hinj.1, ?_, hinj.2.2.1, ?_⟩
          · rw [innerEval_stateBefore]
            exact hf
          · simpa using hinj.2.1
      | succ k =>
        have hnone := runSession_flag_true_no_inject cfg l
          (innerEval cfg st a).state hinj.2.2.1 k
        rw [hrs]
        simp only [List.getD_cons_succ]
        refine ⟨⟨?_, ?_⟩, ?_⟩
        · intro hne
          exact absurd hnone hne
        · rintro ⟨-, hall⟩
          have h0 := hall 0 (by omega)
          simp only [List.getD_cons_zero] at h0
          rw [hp] at h0
          exact absurd h0 (by simp)
        · intro hne
          exact absurd hnone hne

/-- C2: in every session started from a freshly constructed
`ShellEvaluator` (flag `false`), an evaluation injects the runtime support
code iff it is the first one that takes the rewrite path: there the flag
flips from `false` to `true`, the support source is evaluated in the
evaluator's own realm, and the same support text is prepended to the
rewritten input handed to `originalEval`; no later evaluation injects
again, and direct shell commands never do. -/
theorem shellEvaluator_runtime_support_once (cfg : EvaluatorConfig)
    (inputs : List String) (i : Nat) (hi : i < inputs.length) :
    (((sessionTraces cfg inputs).getD i defaultInnerEvalResult).trace.ownRealmEvaluated ≠ [] ↔
      ((sessionTraces cfg inputs).getD i defaultInnerEvalResult).trace.processCalled = true ∧
      ∀ j, j < i →
        ((sessionTraces cfg inputs).getD j defaultInnerEvalResult).trace.processCalled
          = false) ∧
    (((sessionTraces cfg inputs).getD i defaultInnerEvalResult).trace.ownRealmEvaluated ≠ [] →
      ((sessionTraces cfg inputs).getD i defaultInnerEvalResult).trace.ownRealmEvaluated =
        [cfg.runtimeSupportCode] ∧
      ((sessionTraces cfg
        inputs).getD i defaultInnerEvalResult).stateBefore.hasAppliedAsyncWriterRuntimeSupport
        = false ∧
      ((sessionTraces cfg
        inputs).getD i defaultInnerEvalResult).state.hasAppliedAsyncWriterRuntimeSupport
        = true ∧
      ((sessionTraces cfg inputs).getD i defaultInnerEvalResult).trace.evaluatedInput =
        some (cfg.runtimeSupportCode ++ ";\n" ++ cfg.process (inputs.getD i ""))) :=
  runSession_first_rewrite_injects cfg inputs initialEvaluatorState rfl i hi

/-- A concrete direct shell command: joins its string arguments. -/
def witnessShowEntry : ShellApiEntry :=
  { isDirectShellCommand := true, run := fun args => String.intercalate " " args }

/-- A concrete evaluator configuration for witnesses. -/
def witnessCfg : EvaluatorConfig :=
  { shellApi := fun c => if c = "show" then some witnessShowEntry else none
    process := fun s => s ++ "/*rewritten*/"
    runtimeSupportCode := "globalThis.SUPPORT = 1"
    originalEval := fun s => Except.ok s
    transformError := fun e => e
    isHidden := fun _ => false }

/-- C2 witness: in the session `["show dbs", "1+1", "2+2"]` the second
evaluation is the first rewritten one; it injects the support code. -/
theorem shellEvaluator_runtime_support_once_witness :
    1 < (["show dbs", "1+1", "2+2"] : List String).length ∧
    ((sessionTraces witnessCfg
        ["show dbs", "1+1", "2+2"]).getD 1 defaultInnerEvalResult).trace.ownRealmEvaluated =
      ["globalThis.SUPPORT = 1"] := by
  refine ⟨by decide, ?_⟩
  have h := shellEvaluator_runtime_support_once witnessCfg ["show dbs", "1+1", "2+2"] 1
    (by decide)
  refine (h.2 ?_).1
  decide

/-- C10: when the first token of the input names a shell API member marked
`isDirectShellCommand` and the next token does not start with `'('`,
`innerEval` dispatches the command directly with the remaining tokens as
string arguments and returns its result; the input is not run through the
async rewriter and no runtime-support injection happens. -/
theorem innerEval_direct_shell_command (cfg : EvaluatorConfig) (st : EvaluatorState)
    (input : String) (entry : ShellApiEntry)
    (hcmd : cfg.shellApi (shellCmd input) = some entry)
    (hdirect : entry.isDirectShellCommand = true)
    (hparen : startsWithParen (firstArgToken input) = false) :
    innerEval cfg st input = directEvalResult st (shellCmd input) entry (shellArgv input) ∧
    (innerEval cfg st input).result = Except.ok (entry.run (shellArgv input)) ∧
    (innerEval cfg st input).trace.processCalled = false ∧
    (innerEval cfg st input).trace.ownRealmEvaluated = [] ∧
    (innerEval cfg st input).trace.directShellCommand =
      some (shellCmd input, shellArgv input) ∧
    (innerEval cfg st input).state = st := by
  have heq : innerEval cfg st input =
      directEvalResult st (shellCmd input) entry (shellArgv input) := by
    unfold innerEval
    rw [hcmd]
    simp [hdirect, hparen]
  rw [heq]
  exact ⟨rfl, rfl, rfl, rfl, rfl, rfl⟩

/-- C10 witness: `show dbs;` is dispatched directly. -/
theorem innerEval_direct_shell_command_witness :
    witnessCfg.shellApi (shellCmd "show dbs;") = some witnessShowEntry ∧
    witnessShowEntry.isDirectShellCommand = true ∧
    startsWithParen (firstArgToken "show dbs;") = false ∧
    (innerEval witnessCfg initialEvaluatorState "show dbs;").result = Except.ok "dbs" ∧
    (innerEval witnessCfg initialEvaluatorState "show dbs;").trace.processCalled = false := by
  have h := innerEval_direct_shell_command witnessCfg initialEvaluatorState "show dbs;"
    witnessShowEntry (by rfl) rfl (by rfl)
  refine ⟨by rfl, rfl, by rfl, ?_, h.2.2.1⟩
  rw [h.2.1]
  decide

end Mongosh
